import Mathlib

/-!
Verification of `_aish/clean_terminal_log.py`: a virtual terminal buffer that
replays a captured session log (literal characters, C0 control codes and ANSI
escape sequences) and flattens the final screen to plain text.

The embedding mirrors the Python source closely:
* lines are `List Char`, the screen is a `List (List Char)`;
* Python integers are `Int` (cursor coordinates can go negative);
* Python's negative-index and slice semantics are modelled by `pyIndex`,
  `pySet`, `pyTake`, `pyDrop`;
* an operation that can raise `IndexError` returns `Option` (`none` models the
  exception propagating to the `except Exception` handler of the script, which
  prints a message and exits with status 1 without writing any output);
* the scanning loop of `clean_script_log` advances an index by at least one
  character per iteration, so it is embedded with structural fuel equal to the
  chunk length (the fuel-exhausted case with characters remaining is
  unreachable).
-/

/-- Python list indexing `xs[i]` (negative indices count from the end;
out of range raises `IndexError`, modelled by `none`). -/
def pyIndex {α : Type} (xs : List α) (i : Int) : Option α :=
  if 0 ≤ i then xs.get? i.toNat
  else if (xs.length : Int) + i < 0 then none
  else xs.get? ((xs.length : Int) + i).toNat

/-- Python list assignment `xs[i] = a` (same index rule as `pyIndex`). -/
def pySet {α : Type} (xs : List α) (i : Int) (a : α) : Option (List α) :=
  if 0 ≤ i then
    if i.toNat < xs.length then some (xs.set i.toNat a) else none
  else if (xs.length : Int) + i < 0 then none
  else some (xs.set ((xs.length : Int) + i).toNat a)

/-- Python slice `xs[:i]` (negative stop counts from the end, clamped at 0). -/
def pyTake {α : Type} (xs : List α) (i : Int) : List α :=
  xs.take (if i < 0 then ((xs.length : Int) + i).toNat else i.toNat)

/-- Python slice `xs[i:]` (negative start counts from the end, clamped at 0). -/
def pyDrop {α : Type} (xs : List α) (i : Int) : List α :=
  xs.drop (if i < 0 then ((xs.length : Int) + i).toNat else i.toNat)

/-- The `while len(self.lines) <= row: self.lines.append('')` growth loop of
`get_line` / `set_line` / `set_cursor_position`: appends empty lines until the
length exceeds `row` (no effect when `row` is already below the length). -/
def grown (lines : List (List Char)) (row : Int) : List (List Char) :=
  lines ++ List.replicate (row + 1 - (lines.length : Int)).toNat []

/-- The `Cursor` class: current position plus a single saved slot
(`_row`, `_col`, `saved_row`, `saved_col`, all initialized to 0). -/
structure Cursor where
  row : Int
  col : Int
  saved_row : Int
  saved_col : Int
deriving Repr, DecidableEq

def Cursor.init : Cursor := ⟨0, 0, 0, 0⟩

def Cursor.save_position (c : Cursor) : Cursor :=
  { c with saved_row := c.row, saved_col := c.col }

def Cursor.restore_position (c : Cursor) : Cursor :=
  { c with row := c.saved_row, col := c.saved_col }

def Cursor.move_left (c : Cursor) (steps : Int) : Cursor :=
  { c with col := max 0 (c.col - steps) }

def Cursor.move_right (c : Cursor) (steps : Int) (max_col : Option Int) : Cursor :=
  match max_col with
  | some m => { c with col := min m (c.col + steps) }
  | none => { c with col := c.col + steps }

def Cursor.move_up (c : Cursor) (steps : Int) : Cursor :=
  { c with row := max 0 (c.row - steps) }

def Cursor.move_down (c : Cursor) (steps : Int) (max_row : Option Int) : Cursor :=
  match max_row with
  | some m => { c with row := min m (c.row + steps) }
  | none => { c with row := c.row + steps }

def Cursor.set_position (c : Cursor) (row col : Int) : Cursor :=
  { c with row := row, col := col }

/-- The `Buffer` class: list of screen lines (initially one empty line)
owning a `Cursor`. -/
structure Buffer where
  lines : List (List Char)
  cursor : Cursor
deriving Repr, DecidableEq

def Buffer.init : Buffer := ⟨[[]], Cursor.init⟩

/-- `Buffer.get_line`: grow the line list up to `row`, then return the grown
buffer together with `self.lines[row]` (Python indexing, so a negative `row`
reads from the end and can raise). -/
def Buffer.get_line (b : Buffer) (row : Int) : Option (Buffer × List Char) :=
  let ls := grown b.lines row
  match pyIndex ls row with
  | some s => some ({ b with lines := ls }, s)
  | none => none

/-- `Buffer.set_line`: grow the line list up to `row`, then assign
`self.lines[row] = content`. -/
def Buffer.set_line (b : Buffer) (row : Int) (content : List Char) : Option Buffer :=
  let ls := grown b.lines row
  match pySet ls row content with
  | some ls' => some { b with lines := ls' }
  | none => none

def Buffer.delete_to_end_of_line (b : Buffer) : Option Buffer :=
  match b.get_line b.cursor.row with
  | some (b1, line) => b1.set_line b1.cursor.row (pyTake line b1.cursor.col)
  | none => none

def Buffer.delete_from_start_of_line (b : Buffer) : Option Buffer :=
  match b.get_line b.cursor.row with
  | some (b1, line) => b1.set_line b1.cursor.row (pyDrop line b1.cursor.col)
  | none => none

def Buffer.delete_line (b : Buffer) : Option Buffer :=
  match b.set_line b.cursor.row [] with
  | some b1 => some { b1 with cursor := b1.cursor.set_position b1.cursor.row 0 }
  | none => none

def Buffer.delete_to_end_of_screen (b : Buffer) : Option Buffer :=
  Buffer.delete_to_end_of_line { b with lines := pyTake b.lines (b.cursor.row + 1) }

def Buffer.delete_from_start_of_screen (b : Buffer) : Option Buffer :=
  Buffer.delete_from_start_of_line
    { b with lines := List.replicate (b.cursor.row + 1).toNat [] }

def Buffer.delete_screen (b : Buffer) : Buffer :=
  { lines := [[]], cursor := b.cursor.set_position 0 0 }

def Buffer.move_cursor_left (b : Buffer) (steps : Int) : Buffer :=
  { b with cursor := b.cursor.move_left steps }

def Buffer.move_cursor_right (b : Buffer) (steps : Int) : Option Buffer :=
  match b.get_line b.cursor.row with
  | some (b1, line) =>
    some { b1 with cursor := b1.cursor.move_right steps (some (line.length : Int)) }
  | none => none

def Buffer.move_cursor_up (b : Buffer) (steps : Int) : Option Buffer :=
  let b1 : Buffer := { b with cursor := b.cursor.move_up steps }
  match b1.get_line b1.cursor.row with
  | some (b2, line) =>
    some { b2 with cursor := b2.cursor.move_right 0 (some (line.length : Int)) }
  | none => none

def Buffer.move_cursor_down (b : Buffer) (steps : Int) : Option Buffer :=
  let b1 : Buffer :=
    { b with cursor := b.cursor.move_down steps (some ((b.lines.length : Int) - 1)) }
  match b1.get_line b1.cursor.row with
  | some (b2, line) =>
    some { b2 with cursor := b2.cursor.move_right 0 (some (line.length : Int)) }
  | none => none

def Buffer.save_cursor_position (b : Buffer) : Buffer :=
  { b with cursor := b.cursor.save_position }

def Buffer.restore_cursor_position (b : Buffer) : Buffer :=
  { b with cursor := b.cursor.restore_position }

/-- `Buffer.set_cursor_position`: set the cursor, grow the line list up to the
new row, then clamp the column to the length of the line at the new row
(`move_right(0, max_col=len(line))`). -/
def Buffer.set_cursor_position (b : Buffer) (row col : Int) : Option Buffer :=
  let b1 : Buffer := { b with cursor := b.cursor.set_position row col }
  let b2 : Buffer := { b1 with lines := grown b1.lines b1.cursor.row }
  match b2.get_line b2.cursor.row with
  | some (b3, line) =>
    some { b3 with cursor := b3.cursor.move_right 0 (some (line.length : Int)) }
  | none => none

/-- Second byte class `[@-_]` of the recognizer regex. -/
def isCsiSecond (c : Char) : Bool := 0x40 ≤ c.toNat && c.toNat ≤ 0x5F

/-- Parameter byte class `[0-?]` of the recognizer regex. -/
def isParamByte (c : Char) : Bool := 0x30 ≤ c.toNat && c.toNat ≤ 0x3F

/-- Intermediate byte class (0x20 to 0x2F) of the recognizer regex. -/
def isInterByte (c : Char) : Bool := 0x20 ≤ c.toNat && c.toNat ≤ 0x2F

/-- Final byte class `[@-~]` of the recognizer regex. -/
def isFinalByte (c : Char) : Bool := 0x40 ≤ c.toNat && c.toNat ≤ 0x7E

/-- The recognizer regex of `clean_script_log` matched at position `i`: an
escape byte, one byte in 0x40 to 0x5F, then any number of parameter bytes
(0x30 to 0x3F), then any number of intermediate bytes (0x20 to 0x2F), then one
final byte (0x40 to 0x7E). Returns the matched sequence and the remaining
characters. The two repetition classes are pairwise disjoint from each other
and from the final byte class, so Python's greedy backtracking matcher is
equivalent to this maximal-munch scan. -/
def ansi_escape : List Char → Option (List Char × List Char)
  | c :: c2 :: rest =>
    if c = '\x1B' && isCsiSecond c2 then
      let ps := rest.takeWhile isParamByte
      let r2 := rest.dropWhile isParamByte
      let ints := r2.takeWhile isInterByte
      let r3 := r2.dropWhile isInterByte
      match r3 with
      | f :: r4 => if isFinalByte f then some (c :: c2 :: (ps ++ ints ++ [f]), r4) else none
      | [] => none
    else none
  | _ => none

/-- Python `str.isdigit` on the ASCII spans occurring here: nonempty and all
characters are decimal digits (every character reaching this check lies in
the ASCII range `0x20`–`0x3F`, where Python's notion of digit coincides with
`Char.isDigit`). -/
def py_isdigit (s : List Char) : Bool := !s.isEmpty && s.all Char.isDigit

/-- Python `int` on a string of decimal digits. -/
def decimal (s : List Char) : Nat := s.foldl (fun a c => a * 10 + (c.toNat - 48)) 0

/-- The dispatch on a matched escape sequence `seq` (the body of the
`if match:` branch of `clean_script_log`): compute
`steps = int(seq[2:-1]) if seq[2:-1].isdigit() else 1`, then branch on the
final character (`endswith`), with exact-string tests for the `K`/`J` forms
and a two-decimal-parameter parse for `H`. -/
def handle_csi (b : Buffer) (s : List Char) : Option Buffer :=
  let mid := (s.drop 2).dropLast
  let steps : Int := if py_isdigit mid then ((decimal mid : Int)) else 1
  if s.getLast? = some 'D' then some (b.move_cursor_left steps)
  else if s.getLast? = some 'C' then b.move_cursor_right steps
  else if s.getLast? = some 'A' then b.move_cursor_up steps
  else if s.getLast? = some 'B' then b.move_cursor_down steps
  else if s.getLast? = some 's' then some b.save_cursor_position
  else if s.getLast? = some 'u' then some b.restore_cursor_position
  else if s.getLast? = some 'K' then
    if s = ['\x1B', '[', 'K'] then b.delete_to_end_of_line
    else if s = ['\x1B', '[', '1', 'K'] then b.delete_from_start_of_line
    else if s = ['\x1B', '[', '2', 'K'] then b.delete_line
    else some b
  else if s.getLast? = some 'J' then
    if s = ['\x1B', '[', 'J'] then b.delete_to_end_of_screen
    else if s = ['\x1B', '[', '1', 'J'] then b.delete_from_start_of_screen
    else if s = ['\x1B', '[', '2', 'J'] then some b.delete_screen
    else some b
  else if s.contains 'H' then
    match mid.splitOn ';' with
    | [p0, p1] =>
      if py_isdigit p0 && py_isdigit p1 then
        b.set_cursor_position ((decimal p0 : Int) - 1) ((decimal p1 : Int) - 1)
      else some b
    | _ => some b
  else some b

/-- The OSC branch: after `ESC ]`, discard characters up to and including a
`BEL` terminator (everything to the end of the chunk when there is none). -/
def skip_osc (cs : List Char) : List Char :=
  match cs.dropWhile (fun c => c ≠ '\x07') with
  | [] => []
  | _ :: rest => rest

/-- The `while i < len(line)` scanning loop of `clean_script_log` over one
chunk, with structural fuel. Every iteration consumes at least one character,
so with fuel equal to the remaining length the `fuel = 0` case only ever sees
an empty remainder (where the loop exits returning the buffer). -/
def process_chunk_aux : Nat → Buffer → List Char → Option Buffer
  | _, b, [] => some b
  | 0, b, _ :: _ => some b
  | fuel + 1, b, c :: cs =>
    if c = '\x1B' then
      match cs with
      | ']' :: r => process_chunk_aux fuel b (skip_osc r)
      | _ =>
        match ansi_escape (c :: cs) with
        | some (s, r) =>
          match handle_csi b s with
          | some b' => process_chunk_aux fuel b' r
          | none => none
        | none => process_chunk_aux fuel b cs
    else if c = '\x08' then
      if 0 < b.cursor.col then
        let b1 := b.move_cursor_left 1
        match b1.get_line b1.cursor.row with
        | some (b2, lc) =>
          match b2.set_line b2.cursor.row
              (pyTake lc b2.cursor.col ++ pyDrop lc (b2.cursor.col + 1)) with
          | some b3 => process_chunk_aux fuel b3 cs
          | none => none
        | none => none
      else process_chunk_aux fuel b cs
    else if c = '\x0D' then process_chunk_aux fuel b cs
    else if c = '\x0A' then
      match b.set_cursor_position (b.cursor.row + 1) 0 with
      | some b1 =>
        let b2 := if (b1.lines.length : Int) ≤ b1.cursor.row
          then { b1 with lines := b1.lines ++ [[]] } else b1
        process_chunk_aux fuel b2 cs
      | none => none
    else if c = '\x07' then process_chunk_aux fuel b cs
    else if c = '\x00' then process_chunk_aux fuel b cs
    else
      match b.get_line b.cursor.row with
      | some (b1, lc) =>
        let written := if b1.cursor.col < (lc.length : Int)
          then pyTake lc b1.cursor.col ++ c :: pyDrop lc (b1.cursor.col + 1)
          else lc ++ [c]
        match b1.set_line b1.cursor.row written with
        | some b2 =>
          match b2.move_cursor_right 1 with
          | some b3 => process_chunk_aux fuel b3 cs
          | none => none
        | none => none
      | none => none

def process_chunk (b : Buffer) (l : List Char) : Option Buffer :=
  process_chunk_aux l.length b l

/-- The `for line in input_stream` loop: process the chunks in order,
threading the buffer; an exception aborts the run. -/
def process_chunks (b : Buffer) : List (List Char) → Option Buffer
  | [] => some b
  | l :: ls =>
    match process_chunk b l with
    | some b' => process_chunks b' ls
    | none => none

/-- `'\n'.join(lines)`. -/
def join_lines : List (List Char) → List Char
  | [] => []
  | [l] => l
  | l :: ls => l ++ '\n' :: join_lines ls

/-- `clean_script_log`: replay the chunks from the initial buffer, then emit
`'\n'.join(buffer.lines) + '\n'` in a single write; `none` models the run
aborting in the top-level exception handler without writing. -/
def clean_script_log (chunks : List (List Char)) : Option (List Char) :=
  match process_chunks Buffer.init chunks with
  | some b => some (join_lines b.lines ++ ['\n'])
  | none => none

/-- The line the code reads at a nonnegative row `r` after the growth loop:
row `r` of `grown ls r`. -/
def line_at (ls : List (List Char)) (r : Int) : List Char :=
  (grown ls r).getD r.toNat []

/-- The single saved slot of a buffer's cursor. -/
def saved_pair (b : Buffer) : Int × Int := (b.cursor.saved_row, b.cursor.saved_col)

/-- The cursor position reached by a `restore_cursor_position` issued on `b`. -/
def restored_pos (b : Buffer) : Int × Int :=
  ((b.restore_cursor_position).cursor.row, (b.restore_cursor_position).cursor.col)

theorem grown_of_lt (ls : List (List Char)) (r : Int) (h : r < (ls.length : Int)) :
    grown ls r = ls := by
  have h0 : (r + 1 - (ls.length : Int)).toNat = 0 := by omega
  simp [grown, h0]

theorem toNat_lt_grown_length (ls : List (List Char)) (r : Int) (h : 0 ≤ r) :
    r.toNat < (grown ls r).length := by
  simp only [grown, List.length_append, List.length_replicate]
  omega

theorem pyIndex_of_nonneg {α : Type} (xs : List α) (i : Int) (d : α)
    (h : 0 ≤ i) (hl : i.toNat < xs.length) :
    pyIndex xs i = some (xs.getD i.toNat d) := by
  unfold pyIndex
  rw [if_pos h, List.getD_eq_getElem xs d hl]
  exact List.get?_eq_get hl

theorem pyIndex_of_neg {α : Type} (xs : List α) (i : Int) (d : α)
    (h : i < 0) (h2 : 0 ≤ (xs.length : Int) + i) :
    pyIndex xs i = some (xs.getD ((xs.length : Int) + i).toNat d) := by
  have hl : ((xs.length : Int) + i).toNat < xs.length := by omega
  unfold pyIndex
  rw [if_neg (by omega), if_neg (by omega), List.getD_eq_getElem xs d hl]
  exact List.get?_eq_get hl

/-- `get_line` at a nonnegative row always succeeds: it returns the grown
buffer and the line at that row. -/
theorem get_line_of_nonneg (b : Buffer) (r : Int) (h : 0 ≤ r) :
    b.get_line r = some ({ b with lines := grown b.lines r }, line_at b.lines r) := by
  simp only [Buffer.get_line]
  rw [pyIndex_of_nonneg (grown b.lines r) r [] h (toNat_lt_grown_length b.lines r h)]
  rfl

/-- C1, counterexample: on the input `ESC[5;10H` followed by `X`, the replay
ends with lines `["", "", "", "", "X"]`: the `X` lands at column 0 of row 4
(`set_cursor_position` clamped the column to the length of the empty
destination line), so the line at row index 4 does not contain `X` at column
index 9. -/
theorem C1_counterexample :
    process_chunks Buffer.init [['\x1B', '[', '5', ';', '1', '0', 'H', 'X']]
      = some ⟨[[], [], [], [], ['X']], ⟨4, 1, 0, 0⟩⟩ ∧
    (([[], [], [], [], ['X']] : List (List Char)).getD 4 []).get? 9 ≠ some 'X' := by
  decide

/-- C1, amended: on the input `ESC[5;10H` followed by `X`, the final buffer
has at least 5 lines, all rows before row 4 are empty lines, and row 4
contains `X` at column index 0 (the cursor-position sequence clamps the
column to the length of the destination line, which is empty). -/
theorem C1_amended_holds :
    ∃ b, process_chunks Buffer.init [['\x1B', '[', '5', ';', '1', '0', 'H', 'X']] = some b ∧
      5 ≤ b.lines.length ∧
      (b.lines.getD 4 []).get? 0 = some 'X' ∧
      (∀ i < 4, b.lines.getD i [] = ([] : List Char)) := by
  exact ⟨⟨[[], [], [], [], ['X']], ⟨4, 1, 0, 0⟩⟩, by decide, by decide, by decide, by decide⟩

/-- C2, code evaluation at the failing input: the sequence `ESC[0;0H` has two
decimal-digit parameters (`"0"` and `"0"`), yet processing it drives the
cursor to row `-1`, column `-1` — the code subtracts 1 from each parameter
without clamping at 0, so the non-negativity invariant is violated. -/
theorem C2_code_evaluation :
    ∃ b, process_chunks Buffer.init [['\x1B', '[', '0', ';', '0', 'H']] = some b ∧
      b.cursor.row < 0 ∧ b.cursor.col < 0 :=
  ⟨⟨[[]], ⟨-1, -1, 0, 0⟩⟩, by decide, by decide, by decide⟩

/-- C3, code evaluation at the failing input: on the input `ESC[0;0H` followed
by `ESC[J`, the erase-to-end-of-screen handler truncates the line list to the
empty list (cursor row is `-1`) and then indexes `lines[-1]`, raising an
`IndexError` that escapes to the top-level exception handler: the run aborts
with no flattened write (modelled by `none`). -/
theorem C3_code_evaluation :
    clean_script_log [['\x1B', '[', '0', ';', '0', 'H', '\x1B', '[', 'J']] = none := by
  decide

/-- C4, counterexample: on the buffer with single line `"abcdef"` and cursor at
column 3, `ESC[0K` and `ESC[0J` are consumed with no effect, while `ESC[K` and
`ESC[J` truncate the line to `"abc"` — so `ESC[0K` does not have the same
effect as `ESC[K`, nor `ESC[0J` the same effect as `ESC[J`. -/
theorem C4_counterexample :
    handle_csi ⟨[['a', 'b', 'c', 'd', 'e', 'f']], ⟨0, 3, 0, 0⟩⟩ ['\x1B', '[', '0', 'K']
        = some ⟨[['a', 'b', 'c', 'd', 'e', 'f']], ⟨0, 3, 0, 0⟩⟩ ∧
    handle_csi ⟨[['a', 'b', 'c', 'd', 'e', 'f']], ⟨0, 3, 0, 0⟩⟩ ['\x1B', '[', 'K']
        = some ⟨[['a', 'b', 'c']], ⟨0, 3, 0, 0⟩⟩ ∧
    handle_csi ⟨[['a', 'b', 'c', 'd', 'e', 'f']], ⟨0, 3, 0, 0⟩⟩ ['\x1B', '[', '0', 'J']
        = some ⟨[['a', 'b', 'c', 'd', 'e', 'f']], ⟨0, 3, 0, 0⟩⟩ ∧
    handle_csi ⟨[['a', 'b', 'c', 'd', 'e', 'f']], ⟨0, 3, 0, 0⟩⟩ ['\x1B', '[', 'J']
        = some ⟨[['a', 'b', 'c']], ⟨0, 3, 0, 0⟩⟩ ∧
    (⟨[['a', 'b', 'c', 'd', 'e', 'f']], ⟨0, 3, 0, 0⟩⟩ : Buffer)
        ≠ ⟨[['a', 'b', 'c']], ⟨0, 3, 0, 0⟩⟩ := by
  decide

/-- C4, amended: for every buffer state, `ESC[0K` and `ESC[0J` are consumed
with no effect — the erase dispatch compares the sequence against the exact
strings `ESC[K`/`ESC[1K`/`ESC[2K` (resp. `ESC[J`/`ESC[1J`/`ESC[2J`), so the
explicit-`0` forms fall through all three comparisons. -/
theorem C4_amended_holds (b : Buffer) :
    handle_csi b ['\x1B', '[', '0', 'K'] = some b ∧
    handle_csi b ['\x1B', '[', '0', 'J'] = some b := by
  constructor <;> rfl

/-- C5, counterexample: `ESC[1;5C` matches the recognizer, yet the buffer with
one 8-character line and cursor at column 0 is moved right by 1, not by 5: the
code applies `int(seq[2:-1])` only when the whole span `"1;5"` is a digit
string, which it is not, so the default 1 is used instead of the digits `5`
immediately preceding the final byte. -/
theorem C5_counterexample :
    ansi_escape ['\x1B', '[', '1', ';', '5', 'C']
      = some (['\x1B', '[', '1', ';', '5', 'C'], []) ∧
    handle_csi ⟨[['a', 'b', 'c', 'd', 'e', 'f', 'g', 'h']], ⟨0, 0, 0, 0⟩⟩
        ['\x1B', '[', '1', ';', '5', 'C']
      = Buffer.move_cursor_right ⟨[['a', 'b', 'c', 'd', 'e', 'f', 'g', 'h']], ⟨0, 0, 0, 0⟩⟩ 1 ∧
    handle_csi ⟨[['a', 'b', 'c', 'd', 'e', 'f', 'g', 'h']], ⟨0, 0, 0, 0⟩⟩
        ['\x1B', '[', '1', ';', '5', 'C']
      ≠ Buffer.move_cursor_right ⟨[['a', 'b', 'c', 'd', 'e', 'f', 'g', 'h']], ⟨0, 0, 0, 0⟩⟩ 5 := by
  decide

/-- C8: for the input `ab\x08c`, after `a` and `b` the cursor is at column 2;
the backspace moves the cursor to column 1 and deletes `'b'` by shifting the
rest of the line left, leaving `"a"`; writing `c` at column 1 yields the final
line `"ac"`, flattened to `"ac\n"`. -/
theorem C8_destructive_backspace :
    process_chunk Buffer.init ['a', 'b'] = some ⟨[['a', 'b']], ⟨0, 2, 0, 0⟩⟩ ∧
    process_chunk Buffer.init ['a', 'b', '\x08'] = some ⟨[['a']], ⟨0, 1, 0, 0⟩⟩ ∧
    process_chunk Buffer.init ['a', 'b', '\x08', 'c'] = some ⟨[['a', 'c']], ⟨0, 2, 0, 0⟩⟩ ∧
    clean_script_log [['a', 'b', '\x08', 'c']] = some ['a', 'c', '\n'] := by
  decide

/-- C5, amended: for every buffer and every parameter span `mid`, a matched
sequence `ESC [ mid F` with final byte `F` in `A`/`B`/`C`/`D` is dispatched to
the corresponding cursor move with count `int(mid)` when the whole span `mid`
is a nonempty digit string, and with the default count 1 otherwise (so digits
preceding the final byte inside a larger span, as in `ESC[1;5C`, do not
contribute: that sequence moves by 1). -/
theorem C5_amended_holds (b : Buffer) (mid : List Char) :
    handle_csi b ('\x1B' :: '[' :: (mid ++ ['D']))
      = some (b.move_cursor_left (if py_isdigit mid then ((decimal mid : Int)) else 1)) ∧
    handle_csi b ('\x1B' :: '[' :: (mid ++ ['C']))
      = b.move_cursor_right (if py_isdigit mid then ((decimal mid : Int)) else 1) ∧
    handle_csi b ('\x1B' :: '[' :: (mid ++ ['A']))
      = b.move_cursor_up (if py_isdigit mid then ((decimal mid : Int)) else 1) ∧
    handle_csi b ('\x1B' :: '[' :: (mid ++ ['B']))
      = b.move_cursor_down (if py_isdigit mid then ((decimal mid : Int)) else 1) := by
  have hshape : ∀ f : Char, ('\x1B' :: '[' :: (mid ++ [f]))
      = ('\x1B' :: '[' :: mid) ++ [f] := by simp
  have hlast : ∀ f : Char, ('\x1B' :: '[' :: (mid ++ [f])).getLast? = some f := by
    intro f; rw [hshape f]; exact List.getLast?_concat _
  have hmid : ∀ f : Char, (('\x1B' :: '[' :: (mid ++ [f])).drop 2).dropLast = mid := by
    intro f; simp [List.dropLast_concat]
  refine ⟨?_, ?_, ?_, ?_⟩ <;>
    simp [handle_csi, hlast, hmid]

/-- C6: after a vertical cursor move (`move_cursor_up` for CSI `A`,
`move_cursor_down` for CSI `B`), the cursor column equals the minimum of its
previous value and the length of the line at the destination row — column
reflow on vertical move, not column preservation. -/
theorem C6_vertical_reflow (b : Buffer) (steps : Int)
    (hne : b.lines ≠ []) (hrow : 0 ≤ b.cursor.row) (hsteps : 0 ≤ steps) :
    (b.move_cursor_up steps).map (fun x => x.cursor.col)
      = some (min b.cursor.col
          ((line_at b.lines (max 0 (b.cursor.row - steps))).length : Int)) ∧
    (b.move_cursor_down steps).map (fun x => x.cursor.col)
      = some (min b.cursor.col
          ((line_at b.lines
            (min ((b.lines.length : Int) - 1) (b.cursor.row + steps))).length : Int)) := by
  have hlen : 0 < b.lines.length := List.length_pos.mpr hne
  constructor
  · have hup : (0 : Int) ≤ max 0 (b.cursor.row - steps) := le_max_left _ _
    simp only [Buffer.move_cursor_up, Cursor.move_up]
    rw [get_line_of_nonneg _ _ hup]
    simp [Cursor.move_right, min_comm]
  · have hdown : (0 : Int) ≤ min ((b.lines.length : Int) - 1) (b.cursor.row + steps) := by
      omega
    simp only [Buffer.move_cursor_down, Cursor.move_down]
    rw [get_line_of_nonneg _ _ hdown]
    simp [Cursor.move_right, min_comm]

/-- C6, witness: the reflow statement instantiated at a concrete buffer
(two lines `"abcd"` and `"x"`, cursor at row 0, column 4) moving down by 1:
the column is clamped to the length 1 of the destination line. -/
theorem C6_vertical_reflow_witness :
    ((⟨[['a', 'b', 'c', 'd'], ['x']], ⟨0, 4, 0, 0⟩⟩ : Buffer).move_cursor_up 1).map
        (fun x => x.cursor.col)
      = some (min (4 : Int)
          ((line_at [['a', 'b', 'c', 'd'], ['x']] (max 0 ((0 : Int) - 1))).length : Int)) ∧
    ((⟨[['a', 'b', 'c', 'd'], ['x']], ⟨0, 4, 0, 0⟩⟩ : Buffer).move_cursor_down 1).map
        (fun x => x.cursor.col)
      = some (min (4 : Int)
          ((line_at [['a', 'b', 'c', 'd'], ['x']]
            (min (((2 : Nat) : Int) - 1) ((0 : Int) + 1))).length : Int)) :=
  C6_vertical_reflow ⟨[['a', 'b', 'c', 'd'], ['x']], ⟨0, 4, 0, 0⟩⟩ 1
    (by decide) (by decide) (by decide)

/-- C10: when the buffer contains at least one line, `move_cursor_down` (CSI
`B`) succeeds, leaves the line list unchanged, and leaves the cursor row at
most the index of the last existing line, for every nonnegative step count
(stated for every cursor row reachable in the code, i.e. at least `-1`). -/
theorem C10_cursor_down_bounded (b : Buffer) (steps : Int)
    (hne : b.lines ≠ []) (hrow : -1 ≤ b.cursor.row) (hsteps : 0 ≤ steps) :
    ∃ b', b.move_cursor_down steps = some b' ∧ b'.lines = b.lines ∧
      b'.cursor.row ≤ (b.lines.length : Int) - 1 := by
  have hlen : 0 < b.lines.length := List.length_pos.mpr hne
  set rr : Int := min ((b.lines.length : Int) - 1) (b.cursor.row + steps) with hrr
  have hgr : grown b.lines rr = b.lines := grown_of_lt _ _ (by omega)
  rcases le_or_lt 0 rr with h0 | h0
  · have heq : b.move_cursor_down steps
        = some ⟨grown b.lines rr,
            ⟨rr, min ((line_at b.lines rr).length : Int) (b.cursor.col + 0),
              b.cursor.saved_row, b.cursor.saved_col⟩⟩ := by
      simp only [Buffer.move_cursor_down, Cursor.move_down]
      rw [get_line_of_nonneg _ _ h0]
      rfl
    refine ⟨_, heq, by simp [hgr], ?_⟩
    show rr ≤ (b.lines.length : Int) - 1
    omega
  · have hidx : pyIndex b.lines rr
        = some (b.lines.getD ((b.lines.length : Int) + rr).toNat []) :=
      pyIndex_of_neg _ _ [] h0 (by omega)
    have heq : b.move_cursor_down steps
        = some ⟨b.lines,
            ⟨rr, min ((b.lines.getD ((b.lines.length : Int) + rr).toNat []).length : Int)
                (b.cursor.col + 0),
              b.cursor.saved_row, b.cursor.saved_col⟩⟩ := by
      simp only [Buffer.move_cursor_down, Cursor.move_down, Buffer.get_line]
      rw [hgr, hidx]
      rfl
    refine ⟨_, heq, rfl, ?_⟩
    show rr ≤ (b.lines.length : Int) - 1
    omega

/-- C10, witness: the bound instantiated at the two-line buffer
`["a", "bc"]` with cursor at row 0, moving down by 5 steps. -/
theorem C10_cursor_down_bounded_witness :
    ∃ b', (⟨[['a'], ['b', 'c']], ⟨0, 1, 0, 0⟩⟩ : Buffer).move_cursor_down 5 = some b' ∧
      b'.lines = (⟨[['a'], ['b', 'c']], ⟨0, 1, 0, 0⟩⟩ : Buffer).lines ∧
      b'.cursor.row ≤ (((⟨[['a'], ['b', 'c']], ⟨0, 1, 0, 0⟩⟩ : Buffer).lines.length : Int)) - 1 :=
  C10_cursor_down_bounded ⟨[['a'], ['b', 'c']], ⟨0, 1, 0, 0⟩⟩ 5
    (by decide) (by decide) (by decide)

theorem get_line_cursor {b : Buffer} {r : Int} {p : Buffer × List Char}
    (h : b.get_line r = some p) : p.1.cursor = b.cursor := by
  simp only [Buffer.get_line] at h
  split at h
  · cases h; rfl
  · exact Option.noConfusion h

theorem set_line_cursor {b : Buffer} {r : Int} {s : List Char} {b' : Buffer}
    (h : b.set_line r s = some b') : b'.cursor = b.cursor := by
  simp only [Buffer.set_line] at h
  split at h
  · cases h; rfl
  · exact Option.noConfusion h

theorem delete_to_end_of_line_cursor {b b' : Buffer}
    (h : b.delete_to_end_of_line = some b') : b'.cursor = b.cursor := by
  simp only [Buffer.delete_to_end_of_line] at h
  split at h
  · rename_i b1 line heq
    exact (set_line_cursor h).trans (get_line_cursor heq)
  · exact Option.noConfusion h

theorem delete_from_start_of_line_cursor {b b' : Buffer}
    (h : b.delete_from_start_of_line = some b') : b'.cursor = b.cursor := by
  simp only [Buffer.delete_from_start_of_line] at h
  split at h
  · rename_i b1 line heq
    exact (set_line_cursor h).trans (get_line_cursor heq)
  · exact Option.noConfusion h

theorem delete_line_saved {b b' : Buffer}
    (h : b.delete_line = some b') : saved_pair b' = saved_pair b := by
  simp only [Buffer.delete_line] at h
  split at h
  · rename_i b1 heq
    cases h
    simp [saved_pair, Cursor.set_position, set_line_cursor heq]
  · exact Option.noConfusion h

theorem delete_to_end_of_screen_cursor {b b' : Buffer}
    (h : b.delete_to_end_of_screen = some b') : b'.cursor = b.cursor := by
  simp only [Buffer.delete_to_end_of_screen] at h
  have hc := delete_to_end_of_line_cursor h
  exact hc

theorem delete_from_start_of_screen_cursor {b b' : Buffer}
    (h : b.delete_from_start_of_screen = some b') : b'.cursor = b.cursor := by
  simp only [Buffer.delete_from_start_of_screen] at h
  have hc := delete_from_start_of_line_cursor h
  exact hc

theorem restored_pos_eq (b : Buffer) : restored_pos b = saved_pair b := rfl

/-- C9: each of the six erase operations leaves the cursor's saved slot
`(saved_row, saved_col)` unchanged, so a `restore_cursor_position` issued
after the erase returns the cursor to the position saved before it. -/
theorem C9_erase_preserves_saved (b b1 b2 b3 b4 b5 : Buffer)
    (h1 : b.delete_to_end_of_line = some b1)
    (h2 : b.delete_from_start_of_line = some b2)
    (h3 : b.delete_line = some b3)
    (h4 : b.delete_to_end_of_screen = some b4)
    (h5 : b.delete_from_start_of_screen = some b5) :
    (saved_pair b1 = saved_pair b ∧ restored_pos b1 = saved_pair b) ∧
    (saved_pair b2 = saved_pair b ∧ restored_pos b2 = saved_pair b) ∧
    (saved_pair b3 = saved_pair b ∧ restored_pos b3 = saved_pair b) ∧
    (saved_pair b4 = saved_pair b ∧ restored_pos b4 = saved_pair b) ∧
    (saved_pair b5 = saved_pair b ∧ restored_pos b5 = saved_pair b) ∧
    (saved_pair b.delete_screen = saved_pair b ∧
      restored_pos b.delete_screen = saved_pair b) := by
  have e1 : saved_pair b1 = saved_pair b := by
    simp [saved_pair, delete_to_end_of_line_cursor h1]
  have e2 : saved_pair b2 = saved_pair b := by
    simp [saved_pair, delete_from_start_of_line_cursor h2]
  have e3 : saved_pair b3 = saved_pair b := delete_line_saved h3
  have e4 : saved_pair b4 = saved_pair b := by
    simp [saved_pair, delete_to_end_of_screen_cursor h4]
  have e5 : saved_pair b5 = saved_pair b := by
    simp [saved_pair, delete_from_start_of_screen_cursor h5]
  have e6 : saved_pair b.delete_screen = saved_pair b := rfl
  exact ⟨⟨e1, (restored_pos_eq b1).trans e1⟩, ⟨e2, (restored_pos_eq b2).trans e2⟩,
    ⟨e3, (restored_pos_eq b3).trans e3⟩, ⟨e4, (restored_pos_eq b4).trans e4⟩,
    ⟨e5, (restored_pos_eq b5).trans e5⟩,
    ⟨e6, (restored_pos_eq b.delete_screen).trans e6⟩⟩

/-- C9, witness: erase-to-end-of-line on the buffer with line `"ab"`, cursor
at column 1 and saved slot `(7, 8)` keeps the saved slot `(7, 8)`. -/
theorem C9_erase_preserves_saved_witness :
    saved_pair (⟨[['a']], ⟨0, 1, 7, 8⟩⟩ : Buffer)
      = saved_pair (⟨[['a', 'b']], ⟨0, 1, 7, 8⟩⟩ : Buffer) :=
  (C9_erase_preserves_saved ⟨[['a', 'b']], ⟨0, 1, 7, 8⟩⟩
    ⟨[['a']], ⟨0, 1, 7, 8⟩⟩ ⟨[['b']], ⟨0, 1, 7, 8⟩⟩ ⟨[[]], ⟨0, 0, 7, 8⟩⟩
    ⟨[['a']], ⟨0, 1, 7, 8⟩⟩ ⟨[[]], ⟨0, 1, 7, 8⟩⟩
    (by decide) (by decide) (by decide) (by decide) (by decide)).1.1

theorem process_chunk_aux_plain (fuel : Nat) :
    ∀ (l cur : List Char) (sr sc : Int), l.length ≤ fuel →
    (∀ c ∈ l, 0x1B < c.toNat) →
    process_chunk_aux fuel ⟨[cur], ⟨0, (cur.length : Int), sr, sc⟩⟩ l
      = some ⟨[cur ++ l], ⟨0, ((cur ++ l).length : Int), sr, sc⟩⟩ := by
  induction fuel with
  | zero =>
    intro l cur sr sc hf h
    have hl : l = [] := List.length_eq_zero.mp (Nat.le_zero.mp hf)
    subst hl
    simp [process_chunk_aux]
  | succ n ih =>
    intro l cur sr sc hf h
    cases l with
    | nil => simp [process_chunk_aux]
    | cons c cs =>
      have hc : 27 < c.toNat := h c (List.mem_cons_self c cs)
      have hne : ∀ d : Char, d.toNat ≤ 27 → ¬(c = d) := by
        intro d hd e
        subst e
        omega
      have hget : Buffer.get_line ⟨[cur], ⟨0, (cur.length : Int), sr, sc⟩⟩ 0
          = some (⟨[cur], ⟨0, (cur.length : Int), sr, sc⟩⟩, cur) := rfl
      have hrec := ih cs (cur ++ [c]) sr sc (by simpa using Nat.succ_le_succ_iff.mp hf)
        (fun d hd => h d (List.mem_cons_of_mem c hd))
      simp only [process_chunk_aux]
      rw [if_neg (hne '\x1B' (by decide)), if_neg (hne '\x08' (by decide)),
        if_neg (hne '\x0D' (by decide)), if_neg (hne '\x0A' (by decide)),
        if_neg (hne '\x07' (by decide)), if_neg (hne '\x00' (by decide))]
      rw [hget]
      simp only [lt_self_iff_false, if_false]
      have hset : Buffer.set_line ⟨[cur], ⟨0, (cur.length : Int), sr, sc⟩⟩ 0 (cur ++ [c])
          = some ⟨[cur ++ [c]], ⟨0, (cur.length : Int), sr, sc⟩⟩ := rfl
      simp only [hset]
      have hmove : Buffer.move_cursor_right ⟨[cur ++ [c]], ⟨0, (cur.length : Int), sr, sc⟩⟩ 1
          = some ⟨[cur ++ [c]],
              ⟨0, min (((cur ++ [c]).length : Nat) : Int) ((cur.length : Int) + 1), sr, sc⟩⟩ := rfl
      simp only [hmove]
      have hmin : min (((cur ++ [c]).length : Nat) : Int) ((cur.length : Int) + 1)
          = ((cur ++ [c]).length : Int) := by
        simp [List.length_append]
      rw [hmin, hrec]
      simp [List.append_assoc]

theorem process_chunks_plain :
    ∀ (chunks : List (List Char)) (cur : List Char) (sr sc : Int),
    (∀ l ∈ chunks, ∀ c ∈ l, 0x1B < c.toNat) →
    process_chunks ⟨[cur], ⟨0, (cur.length : Int), sr, sc⟩⟩ chunks
      = some ⟨[cur ++ chunks.flatten], ⟨0, ((cur ++ chunks.flatten).length : Int), sr, sc⟩⟩ := by
  intro chunks
  induction chunks with
  | nil => intro cur sr sc h; simp [process_chunks]
  | cons l ls ih =>
    intro cur sr sc h
    simp only [process_chunks, process_chunk]
    rw [process_chunk_aux_plain l.length l cur sr sc le_rfl
      (h l (List.mem_cons_self l ls))]
    simp only [ih (cur ++ l) sr sc (fun l' hl' => h l' (List.mem_cons_of_mem l hl'))]
    simp [List.append_assoc]

/-- C7: an input stream containing no control or escape characters (no unit
with code point at most `0x1B`) is reproduced unchanged, with exactly the
single trailing newline appended by the flattener — regardless of how the
stream is split into chunks. -/
theorem C7_identity_on_plain_text (chunks : List (List Char))
    (h : ∀ l ∈ chunks, ∀ c ∈ l, 0x1B < c.toNat) :
    clean_script_log chunks = some (chunks.flatten ++ ['\n']) := by
  simp only [clean_script_log]
  have h0 : Buffer.init = ⟨[[]], ⟨0, ((([] : List Char).length : Nat) : Int), 0, 0⟩⟩ := rfl
  rw [h0, process_chunks_plain chunks [] 0 0 h]
  simp [join_lines]

/-- C7, witness: the plain text `"hi"` followed by `"!"` (two chunks) is
reproduced as `"hi!"` plus the trailing newline. -/
theorem C7_identity_witness :
    clean_script_log [['h', 'i'], ['!']] = some ['h', 'i', '!', '\n'] := by
  have hw := C7_identity_on_plain_text [['h', 'i'], ['!']] (by decide)
  simpa using hw
